import Mathlib

/-!
Shallow embedding of `src/sensorManager.cpp` (vibration_tracking).

The file models the spectral classifier (`performFFT`), the phase
scheduler (`monitorSensors`), and the FIFO reader
(`readAccelerometerDataForPhase`). Floating-point values are modelled as
exact rationals. Constants whose definitions live in headers that are not
part of the repository snapshot (`SAMPLES`, `MAX_SAMPLES`,
`CYCLES_FOR_5_MIN`, `BLOCK_SIZE`) are taken as parameters. External
collaborators (the MPU driver, SPIFFS, the FFT primitive) are modelled as
event inputs: the transform's output bins are an arbitrary function, and
driver / storage outcomes are boolean event records.
-/

/-- Sampling frequency constant, `#define SAMPLING_FREQUENCY 5` (line 21). -/
def SAMPLING_FREQUENCY : ℕ := 5

/-- `#define AXE_MIN_FREQ 20.0` (line 22). -/
def AXE_MIN_FREQ : ℚ := 20

/-- `#define AXE_MAX_FREQ 60.0` (line 23). -/
def AXE_MAX_FREQ : ℚ := 60

/-- `#define SAW_MIN_FREQ 5.0` (line 24). -/
def SAW_MIN_FREQ : ℚ := 5

/-- `#define SAW_MAX_FREQ 30.0` (line 25). -/
def SAW_MAX_FREQ : ℚ := 30

/-- `#define CHAINSAW_MIN_FREQ 50.0` (line 26). -/
def CHAINSAW_MIN_FREQ : ℚ := 50

/-- `#define CHAINSAW_MAX_FREQ 250.0` (line 27). -/
def CHAINSAW_MAX_FREQ : ℚ := 250

/-- `#define SOME_THRESHOLD 0.3` (line 28). -/
def SOME_THRESHOLD : ℚ := 0.3

/-- Axe-band membership test, exactly the condition of line 157:
`frequency >= AXE_MIN_FREQ && frequency <= AXE_MAX_FREQ`. -/
def inAxeBand (f : ℚ) : Prop := AXE_MIN_FREQ ≤ f ∧ f ≤ AXE_MAX_FREQ

/-- Handsaw-band membership test, the condition of line 159. -/
def inSawBand (f : ℚ) : Prop := SAW_MIN_FREQ ≤ f ∧ f ≤ SAW_MAX_FREQ

/-- Chainsaw-band membership test, the condition of line 161. -/
def inChainsawBand (f : ℚ) : Prop := CHAINSAW_MIN_FREQ ≤ f ∧ f ≤ CHAINSAW_MAX_FREQ

instance (f : ℚ) : Decidable (inAxeBand f) :=
  inferInstanceAs (Decidable (AXE_MIN_FREQ ≤ f ∧ f ≤ AXE_MAX_FREQ))

instance (f : ℚ) : Decidable (inSawBand f) :=
  inferInstanceAs (Decidable (SAW_MIN_FREQ ≤ f ∧ f ≤ SAW_MAX_FREQ))

instance (f : ℚ) : Decidable (inChainsawBand f) :=
  inferInstanceAs (Decidable (CHAINSAW_MIN_FREQ ≤ f ∧ f ≤ CHAINSAW_MAX_FREQ))

/-- The three running band maxima of `performFFT`
(`max_axe_magnitude`, `max_saw_magnitude`, `max_chainsaw_magnitude`,
lines 146-148). -/
structure BandMax where
  axe : ℚ
  saw : ℚ
  chainsaw : ℚ
deriving DecidableEq, Repr

/-- The classification decision (lines 168-176). -/
inductive Classification where
  | chainsaw
  | axe
  | handsaw
  | none
deriving DecidableEq, Repr

/-- One iteration of the scoring loop's band-update chain
(lines 157-163): an `else if` cascade, axe checked first, then handsaw,
then chainsaw, each branch updating its own running maximum. -/
def updateBin (st : BandMax) (f m : ℚ) : BandMax :=
  if inAxeBand f then
    if m > st.axe then { st with axe := m } else st
  else if inSawBand f then
    if m > st.saw then { st with saw := m } else st
  else if inChainsawBand f then
    if m > st.chainsaw then { st with chainsaw := m } else st
  else st

/-- Modelled from the spec: bin-to-frequency mapping of line 152,
`float frequency = (i * SAMPLING_FREQUENCY) / SAMPLES`. The constant
`SAMPLES` is defined in a header that is not part of the repository
snapshot, so the operand type that decides whether the division truncates
is missing; the spec directs reproducing the mapping "using floating-point
arithmetic throughout", so the quotient is exact (rationals). -/
def frequency (i S : ℕ) : ℚ := (i * SAMPLING_FREQUENCY : ℚ) / S

/-- Squared bin magnitude of line 153: the argument of `sqrt`,
`pow(output[2*i], 2) + pow(output[2*i+1], 2)`, reading the transform's
interleaved output at indices `2*i` (real) and `2*i+1` (imaginary). -/
def magnitudeSq (out : ℕ → ℚ) (i : ℕ) : ℚ :=
  (out (2 * i)) ^ 2 + (out (2 * i + 1)) ^ 2

/-- The scoring loop of lines 151-164: for each bin index `i` from 1 to
`SAMPLES/2 - 1`, fold the band-update chain over the running maxima,
starting from all three maxima at 0. `mag i` is the bin magnitude the
code computes at line 153; the transform is external, so the magnitudes
are an arbitrary function of the bin index. -/
def bandMaxima (S : ℕ) (mag : ℕ → ℚ) : BandMax :=
  (List.range' 1 (S / 2 - 1)).foldl (fun st i => updateBin st (frequency i S) (mag i)) ⟨0, 0, 0⟩

/-- The decision cascade of lines 168-176: chainsaw first, then axe, then
handsaw, each compared strictly against `SOME_THRESHOLD`; otherwise none. -/
def classifyBands (st : BandMax) : Classification :=
  if st.chainsaw > SOME_THRESHOLD then Classification.chainsaw
  else if st.axe > SOME_THRESHOLD then Classification.axe
  else if st.saw > SOME_THRESHOLD then Classification.handsaw
  else Classification.none

/-- Zero-padding copy of lines 140-142: the transform input at index `i`
is the sample buffer entry when `i < MAX_SAMPLES`, else 0. -/
def prepareInput (M : ℕ) (buffer : ℕ → ℚ) (i : ℕ) : ℚ :=
  if i < M then buffer i else 0

/-- `performFFT` (lines 137-177), parameterized by `SAMPLES` and the bin
magnitudes derived from the external transform's output: score all bins,
then emit the decision. -/
def performFFT (S : ℕ) (mag : ℕ → ℚ) : Classification :=
  classifyBands (bandMaxima S mag)

/-! ## Phase scheduler (`monitorSensors`, lines 70-111)

External outcomes consumed by one attempt of the per-phase retry loop
(lines 83-107): whether `initializeMPU` succeeded, whether
`logDataToSPIFFS` succeeded, and whether the `SPIFFS.begin(true)` remount
issued after a logging failure succeeded. -/

/-- One attempt's external outcomes: `initializeMPU` (line 86),
`logDataToSPIFFS` (line 94), and the `SPIFFS.begin(true)` remount
(line 102) that is consulted only after a logging failure. -/
structure AttemptEvent where
  initOk : Bool
  logOk : Bool
  remountOk : Bool
deriving DecidableEq, Repr

/-- Invocation counts of the external primitives during one phase:
`toggleSensorPower(true)` (line 84), `initializeMPU` (line 86),
`readAccelerometerDataForPhase` (line 92), `logDataToSPIFFS` (line 94),
`performFFT` (line 98), and the `SPIFFS.end`/`SPIFFS.begin(true)` remount
(lines 101-102). -/
structure PhaseTrace where
  powerOns : ℕ
  initAttempts : ℕ
  reads : ℕ
  logAttempts : ℕ
  classifies : ℕ
  remounts : ℕ
deriving DecidableEq, Repr

/-- Exit state of the per-phase attempt loop: the `phaseCompleted` flag,
the `retryCount` at exit, and the operation counts. -/
structure PhaseResult where
  completed : Bool
  retryCount : ℕ
  trace : PhaseTrace
deriving DecidableEq, Repr

/-- Componentwise sum of operation counts. -/
def addTrace (a b : PhaseTrace) : PhaseTrace :=
  ⟨a.powerOns + b.powerOns, a.initAttempts + b.initAttempts, a.reads + b.reads,
   a.logAttempts + b.logAttempts, a.classifies + b.classifies, a.remounts + b.remounts⟩

/-- Prepend one attempt's operation counts to a loop result. -/
def addStep (t : PhaseTrace) (r : PhaseResult) : PhaseResult :=
  ⟨r.completed, r.retryCount, addTrace t r.trace⟩

/-- The attempt loop of lines 83-107,
`while (!phaseCompleted && retryCount < 3)`: power on and initialize; on
init failure increment `retryCount` and continue (lines 86-90); otherwise
read and log; on logging success set `phaseCompleted`, power off and
classify (lines 95-98); on logging failure remount SPIFFS and, if the
remount fails, break out of the loop (lines 100-105). The event list
supplies the external outcomes, one entry per attempt; an exhausted list
ends the loop with the state reached so far. -/
def attemptLoop : List AttemptEvent → ℕ → PhaseResult
  | events, rc =>
    if 3 ≤ rc then ⟨false, rc, ⟨0, 0, 0, 0, 0, 0⟩⟩
    else
      match events with
      | [] => ⟨false, rc, ⟨0, 0, 0, 0, 0, 0⟩⟩
      | e :: rest =>
        if e.initOk = false then
          addStep ⟨1, 1, 0, 0, 0, 0⟩ (attemptLoop rest (rc + 1))
        else if e.logOk = true then
          ⟨true, rc, ⟨1, 1, 1, 1, 1, 0⟩⟩
        else if e.remountOk = true then
          addStep ⟨1, 1, 1, 1, 0, 1⟩ (attemptLoop rest rc)
        else ⟨false, rc, ⟨1, 1, 1, 1, 0, 1⟩⟩

/-- One phase's attempt loop started with `phaseCompleted = false` and
`retryCount = 0` (lines 80-81). -/
def runPhase (events : List AttemptEvent) : PhaseResult := attemptLoop events 0

/-- One iteration of the phase `for` loop: run the attempt loop, then
`remainingCycles--` (line 108) unconditionally. -/
def phaseStep (cycles : ℤ) (events : List AttemptEvent) : ℤ × PhaseResult :=
  (cycles - 1, runPhase events)

/-- The phase `for` loop of lines 76-110, iterating `CYCLES_FOR_5_MIN`
times (the second argument counts the iterations still to run) with no
re-check of `remainingCycles`; `script p` supplies phase `p`'s external
outcomes. -/
def phaseLoop (script : ℕ → List AttemptEvent) : ℕ → ℕ → ℤ → ℤ × List PhaseResult
  | _, 0, cycles => (cycles, [])
  | phase, r + 1, cycles =>
    let s := phaseStep cycles (script phase)
    let next := phaseLoop script (phase + 1) r s.1
    (next.1, s.2 :: next.2)

/-- `monitorSensors` (lines 70-111), parameterized by the entry value of
`remainingCycles` and by `CYCLES_FOR_5_MIN` (`N`, defined in a header not
part of the snapshot): if `remainingCycles <= 0` on entry, halt
(`quickBlinkAndHalt`, line 72) and return before any phase; otherwise run
all `N` phase iterations. Returns the final cycle counter, the per-phase
results, and whether the halt branch was taken. -/
def monitorSensors (cycles : ℤ) (N : ℕ) (script : ℕ → List AttemptEvent) :
    ℤ × List PhaseResult × Bool :=
  if cycles ≤ 0 then (cycles, [], true)
  else
    let out := phaseLoop script 1 N cycles
    (out.1, out.2, false)

/-- Total operation counts over a list of phase results. -/
def totalTrace (rs : List PhaseResult) : PhaseTrace :=
  rs.foldl (fun t r => addTrace t r.trace) ⟨0, 0, 0, 0, 0, 0⟩

/-! ## FIFO reader (`readAccelerometerDataForPhase`, lines 113-135) -/

/-- The 16-bit two's-complement extraction of line 126:
`int16_t accelX = (fifoBuffer[i] << 8) | fifoBuffer[i + 1]`. -/
def toInt16 (hi lo : ℕ) : ℤ :=
  let v := ((hi <<< 8) ||| lo) % 65536
  if v < 32768 then (v : ℤ) else (v : ℤ) - 65536

/-- The g-force conversion of line 127: `accelX / 16384.0`. -/
def toSample (hi lo : ℕ) : ℚ := (toInt16 hi lo : ℚ) / 16384

/-- The block-extraction loop of lines 125-128:
`for (i = 0; i <= BLOCK_SIZE - 6 && samplesRead < MAX_SAMPLES; i += 6)`,
consuming one 6-byte group per iteration (bytes `i`, `i+1` hold the X
sample; the remaining four are skipped) and appending the converted sample
while the buffer holds strictly fewer than `MAX_SAMPLES` (`M`) entries. -/
def processBlock (M : ℕ) : List ℕ → List ℚ → List ℚ
  | hi :: lo :: _ :: _ :: _ :: _ :: rest, buf =>
    if buf.length < M then processBlock M rest (buf ++ [toSample hi lo]) else buf
  | _, buf => buf

/-- One poll of the FIFO depth (line 119): a full block is available
(`fifoCount >= BLOCK_SIZE`, line 121), the FIFO is empty (line 129), or
neither (the loop just delays). -/
inductive FifoEvent where
  | block : List ℕ → FifoEvent
  | emptyFifo : FifoEvent
  | belowThreshold : FifoEvent
deriving DecidableEq, Repr

/-- The acquisition `while` loop of lines 118-134: each poll either
drains one block into the buffer or waits; the poll list bounds the
wall-clock budget (`PHASE_DURATION`). -/
def readPhase (M : ℕ) : List FifoEvent → List ℚ → List ℚ
  | [], buf => buf
  | FifoEvent.block bs :: rest, buf => readPhase M rest (processBlock M bs buf)
  | _ :: rest, buf => readPhase M rest buf

/-- `readAccelerometerDataForPhase` (lines 113-135): `samplesRead` starts
at 0 (line 115), so acquisition begins with an empty buffer. -/
def readAccelerometerDataForPhase (M : ℕ) (polls : List FifoEvent) : List ℚ :=
  readPhase M polls []

/-! ## Helper lemmas -/

/-- Every scored bin index (1 ≤ i < SAMPLES/2) maps strictly below half
the sampling frequency, 2.5 Hz. -/
theorem frequency_lt_half (i S : ℕ) (h1 : 1 ≤ i) (h2 : i < S / 2) :
    frequency i S < 5 / 2 := by
  have h3 : 2 * i < S := by omega
  have hS : (0 : ℚ) < S := by
    have h4 : 0 < S := by omega
    exact_mod_cast h4
  rw [frequency, SAMPLING_FREQUENCY, div_lt_iff₀ hS]
  have h4 : (2 * i : ℚ) < S := by exact_mod_cast h3
  push_cast
  linarith

/-- A frequency below the lowest band minimum (handsaw, 5 Hz) updates no
band maximum. -/
theorem updateBin_low (st : BandMax) (f m : ℚ) (h : f < 5) : updateBin st f m = st := by
  have n1 : ¬ inAxeBand f := by
    intro hh
    have h1 := hh.1
    rw [AXE_MIN_FREQ] at h1
    linarith
  have n2 : ¬ inSawBand f := by
    intro hh
    have h1 := hh.1
    rw [SAW_MIN_FREQ] at h1
    linarith
  have n3 : ¬ inChainsawBand f := by
    intro hh
    have h1 := hh.1
    rw [CHAINSAW_MIN_FREQ] at h1
    linarith
  simp [updateBin, n1, n2, n3]

/-- A fold whose step fixes every state is the identity. -/
theorem foldl_fixed {α β : Type} (g : β → α → β) (l : List α) (b : β)
    (h : ∀ a ∈ l, ∀ x, g x a = x) : l.foldl g b = b := by
  induction l generalizing b with
  | nil => rfl
  | cons a t ih =>
    rw [List.foldl_cons, h a (List.mem_cons_self a t)]
    exact ih b (fun a ha x => h a (List.mem_cons_of_mem _ ha) x)

/-- The scoring loop leaves all three running maxima at 0, whatever the
transform produced. -/
theorem bandMaxima_zero (S : ℕ) (mag : ℕ → ℚ) : bandMaxima S mag = ⟨0, 0, 0⟩ := by
  apply foldl_fixed
  intro i hi x
  rw [List.mem_range'_1] at hi
  have h1 : 1 ≤ i := hi.1
  have h2 : i < S / 2 := by omega
  exact updateBin_low x _ _ (lt_trans (frequency_lt_half i S h1 h2) (by norm_num))

/-- Once `retryCount` reaches 3 the attempt loop performs nothing. -/
theorem attemptLoop_exhausted (events : List AttemptEvent) (rc : ℕ) (h : 3 ≤ rc) :
    attemptLoop events rc = ⟨false, rc, ⟨0, 0, 0, 0, 0, 0⟩⟩ := by
  cases events with
  | nil => rw [attemptLoop]; simp [h]
  | cons e rest => rw [attemptLoop]; simp [h]

/-- The phase loop decrements the cycle counter once per iteration and
produces one result per iteration. -/
theorem phaseLoop_spec (script : ℕ → List AttemptEvent) :
    ∀ (N p : ℕ) (c : ℤ),
    (phaseLoop script p N c).1 = c - N ∧ (phaseLoop script p N c).2.length = N := by
  intro N
  induction N with
  | zero => intro p c; simp [phaseLoop]
  | succ n ih =>
    intro p c
    rw [phaseLoop]
    have h := ih (p + 1) (phaseStep c (script p)).1
    constructor
    · rw [h.1]
      simp [phaseStep]
      ring
    · simp [h.2]

/-- Block extraction keeps the buffer within capacity, only appends, and
is the identity on a full buffer. -/
theorem processBlock_spec (M : ℕ) : ∀ (bs : List ℕ) (buf : List ℚ),
    buf.length ≤ M →
    (processBlock M bs buf).length ≤ M ∧
    (∃ ext, processBlock M bs buf = buf ++ ext) ∧
    (buf.length = M → processBlock M bs buf = buf) := by
  intro bs buf
  induction bs, buf using processBlock.induct M with
  | case1 hi lo b3 b4 b5 b6 rest buf hfull ih =>
    intro hlen
    rw [processBlock, if_pos hfull]
    have hb : (buf ++ [toSample hi lo]).length ≤ M := by simp; omega
    have hrec := ih hb
    refine ⟨hrec.1, ?_, ?_⟩
    · obtain ⟨ext, hext⟩ := hrec.2.1
      exact ⟨toSample hi lo :: ext, by simp [hext]⟩
    · intro heq
      omega
  | case2 hi lo b3 b4 b5 b6 rest buf hfull =>
    intro hlen
    rw [processBlock, if_neg hfull]
    exact ⟨hlen, ⟨[], by simp⟩, fun _ => rfl⟩
  | case3 bs buf h =>
    intro hlen
    rw [processBlock]
    · exact ⟨hlen, ⟨[], by simp⟩, fun _ => rfl⟩
    · exact h

/-- The acquisition loop keeps the buffer within capacity and ignores all
further reads once the buffer is full. -/
theorem readPhase_spec (M : ℕ) : ∀ (polls : List FifoEvent) (buf : List ℚ),
    buf.length ≤ M →
    (readPhase M polls buf).length ≤ M ∧
    (buf.length = M → readPhase M polls buf = buf) := by
  intro polls
  induction polls with
  | nil => intro buf h; exact ⟨h, fun _ => rfl⟩
  | cons p rest ih =>
    intro buf h
    cases p with
    | block bs =>
      have hb := processBlock_spec M bs buf h
      refine ⟨(ih (processBlock M bs buf) hb.1).1, ?_⟩
      intro heq
      rw [readPhase, hb.2.2 heq]
      exact (ih buf h).2 heq
    | emptyFifo => exact ⟨(ih buf h).1, fun heq => (ih buf h).2 heq⟩
    | belowThreshold => exact ⟨(ih buf h).1, fun heq => (ih buf h).2 heq⟩

/-! ## Claim theorems -/

/-- Claim C1: for every input, `performFFT` decides `none`. Since
`SAMPLING_FREQUENCY` is 5, every scored bin's frequency is strictly below
2.5 Hz, below the lowest band minimum (handsaw, 5 Hz), so all three band
maxima stay 0 and no maximum can exceed the 0.3 threshold. The bin
magnitudes are universally quantified, which covers every possible output
of the external transform and hence every input buffer. -/
theorem performFFT_always_none : ∀ (S : ℕ) (mag : ℕ → ℚ),
    (∀ i, 1 ≤ i → i < S / 2 → frequency i S < 5 / 2) ∧
    bandMaxima S mag = ⟨0, 0, 0⟩ ∧
    performFFT S mag = Classification.none := by
  intro S mag
  refine ⟨fun i h1 h2 => frequency_lt_half i S h1 h2, bandMaxima_zero S mag, ?_⟩
  rw [performFFT, bandMaxima_zero S mag]
  norm_num [classifyBands, SOME_THRESHOLD]

/-- Witness for C1 at `SAMPLES = 1024` with every bin magnitude 100. -/
theorem performFFT_always_none_witness :
    frequency 7 1024 < 5 / 2 ∧ performFFT 1024 (fun _ => 100) = Classification.none :=
  ⟨(performFFT_always_none 1024 (fun _ => 100)).1 7 (by decide) (by decide),
   (performFFT_always_none 1024 (fun _ => 100)).2.2⟩

/-- Claim C2: the decision is taken in the fixed priority order
chainsaw > axe > handsaw, the first band maximum strictly above the shared
threshold 0.3 winning, with `none` when no maximum exceeds it; in
particular maxima (chainsaw 0.4, axe 0.5, handsaw 0.6) decide chainsaw. -/
theorem classify_priority_order : ∀ st : BandMax,
    ((classifyBands st = Classification.chainsaw ↔ SOME_THRESHOLD < st.chainsaw) ∧
     (classifyBands st = Classification.axe ↔
       st.chainsaw ≤ SOME_THRESHOLD ∧ SOME_THRESHOLD < st.axe) ∧
     (classifyBands st = Classification.handsaw ↔
       st.chainsaw ≤ SOME_THRESHOLD ∧ st.axe ≤ SOME_THRESHOLD ∧ SOME_THRESHOLD < st.saw) ∧
     (classifyBands st = Classification.none ↔
       st.chainsaw ≤ SOME_THRESHOLD ∧ st.axe ≤ SOME_THRESHOLD ∧ st.saw ≤ SOME_THRESHOLD)) ∧
    classifyBands ⟨0.5, 0.6, 0.4⟩ = Classification.chainsaw := by
  intro st
  constructor
  · unfold classifyBands
    split_ifs with h1 h2 h3 <;> simp_all
  · norm_num [classifyBands, SOME_THRESHOLD]

/-- Witness for C2: the priority instance from the spec. -/
theorem classify_priority_order_witness :
    classifyBands ⟨0.5, 0.6, 0.4⟩ = Classification.chainsaw :=
  (classify_priority_order ⟨0.5, 0.6, 0.4⟩).2

/-- Counterexample to claim C3: band membership is not decided by the
half-open interval with exclusive upper bound. At frequency exactly 60,
the code's axe test (lines 157-158, `<=` on the upper bound) holds, the
half-open reading `20 <= f < 60` does not, and the axe running maximum is
updated. -/
theorem band_half_open_cex :
    inAxeBand 60 ∧ ¬ ((60 : ℚ) < AXE_MAX_FREQ) ∧
    updateBin ⟨0, 0, 0⟩ 60 1 = ⟨1, 0, 0⟩ := by
  refine ⟨?_, ?_, ?_⟩
  · norm_num [inAxeBand, AXE_MIN_FREQ, AXE_MAX_FREQ]
  · norm_num [AXE_MAX_FREQ]
  · norm_num [updateBin, inAxeBand, AXE_MIN_FREQ, AXE_MAX_FREQ]

/-- Amended C3: membership of a frequency in a band is decided by the
closed interval `[minFreq, maxFreq]`, both bounds inclusive (axe [20,60],
handsaw [5,30], chainsaw [50,250]); an in-band frequency that beats the
axe running maximum updates it, including at the upper endpoint. -/
theorem band_membership_closed : ∀ f : ℚ,
    (inAxeBand f ↔ 20 ≤ f ∧ f ≤ 60) ∧
    (inSawBand f ↔ 5 ≤ f ∧ f ≤ 30) ∧
    (inChainsawBand f ↔ 50 ≤ f ∧ f ≤ 250) ∧
    (∀ st m, inAxeBand f → st.axe < m → (updateBin st f m).axe = m) := by
  intro f
  refine ⟨Iff.rfl, Iff.rfl, Iff.rfl, ?_⟩
  intro st m hf hm
  simp [updateBin, hf, hm]

/-- Witness for the amended C3 at the axe upper endpoint 60. -/
theorem band_membership_closed_witness :
    inAxeBand 60 ∧ (updateBin ⟨0, 0, 0⟩ 60 1).axe = 1 :=
  ⟨by norm_num [inAxeBand, AXE_MIN_FREQ, AXE_MAX_FREQ],
   (band_membership_closed 60).2.2.2 ⟨0, 0, 0⟩ 1
     (by norm_num [inAxeBand, AXE_MIN_FREQ, AXE_MAX_FREQ]) (by norm_num)⟩

/-- Claim C4 (spec-modelled frequency): the frequency used for band
matching is the exact value `i * SAMPLING_FREQUENCY / SAMPLES` — its
product with `SAMPLES` recovers `i * 5` exactly, and fractional values
such as bin 1 of 1024 samples (5/1024 Hz) are preserved rather than
truncated to 0 — and the squared bin magnitude is `re^2 + im^2` of the
interleaved transform outputs at indices `2*i` and `2*i+1`. -/
theorem frequency_exact_interleaved : ∀ (i S : ℕ) (out : ℕ → ℚ), 0 < S →
    frequency i S * S = (i : ℚ) * 5 ∧
    magnitudeSq out i = (out (2 * i)) ^ 2 + (out (2 * i + 1)) ^ 2 ∧
    frequency 1 1024 = 5 / 1024 := by
  intro i S out hS
  have hS0 : (S : ℚ) ≠ 0 := by
    have h1 : S ≠ 0 := by omega
    exact_mod_cast h1
  refine ⟨?_, rfl, ?_⟩
  · rw [frequency, SAMPLING_FREQUENCY]
    push_cast
    field_simp
  · rw [frequency, SAMPLING_FREQUENCY]
    norm_num

/-- Witness for C4 at bin 3 of 1024 samples, transform output `n ↦ n`. -/
theorem frequency_exact_interleaved_witness :
    frequency 3 1024 * 1024 = (3 : ℚ) * 5 ∧
    magnitudeSq (fun n => (n : ℚ)) 3 = ((6 : ℚ)) ^ 2 + ((7 : ℚ)) ^ 2 ∧
    frequency 1 1024 = 5 / 1024 :=
  ⟨(frequency_exact_interleaved 3 1024 (fun n => (n : ℚ)) (by decide)).1,
   (frequency_exact_interleaved 3 1024 (fun n => (n : ℚ)) (by decide)).2.1,
   (frequency_exact_interleaved 3 1024 (fun n => (n : ℚ)) (by decide)).2.2⟩

/-- Claim C5: each scored bin updates at most one band's running maximum
— at least two of the three maxima are always left unchanged — and the
first matching band in the fixed branch order wins: a frequency in the
axe range never touches the handsaw or chainsaw maxima, and a frequency
in the handsaw range outside the axe range never touches the axe or
chainsaw maxima. In the overlap regions (25 Hz in axe ∩ handsaw, 55 Hz in
axe ∩ chainsaw) only the first-checked band is updated. -/
theorem update_at_most_one_band : ∀ (st : BandMax) (f m : ℚ),
    ((((updateBin st f m).axe = st.axe ∧ (updateBin st f m).saw = st.saw) ∨
      ((updateBin st f m).axe = st.axe ∧ (updateBin st f m).chainsaw = st.chainsaw) ∨
      ((updateBin st f m).saw = st.saw ∧ (updateBin st f m).chainsaw = st.chainsaw)) ∧
     (inAxeBand f → (updateBin st f m).saw = st.saw ∧
       (updateBin st f m).chainsaw = st.chainsaw) ∧
     (¬ inAxeBand f → inSawBand f → (updateBin st f m).axe = st.axe ∧
       (updateBin st f m).chainsaw = st.chainsaw)) ∧
    updateBin ⟨0, 0, 0⟩ 25 1 = ⟨1, 0, 0⟩ ∧
    updateBin ⟨0, 0, 0⟩ 55 1 = ⟨1, 0, 0⟩ := by
  intro st f m
  refine ⟨?_, ?_, ?_⟩
  · unfold updateBin
    split_ifs <;> simp_all
  · norm_num [updateBin, inAxeBand, AXE_MIN_FREQ, AXE_MAX_FREQ]
  · norm_num [updateBin, inAxeBand, AXE_MIN_FREQ, AXE_MAX_FREQ]

/-- Witness for C5: 25 Hz lies in both the axe and handsaw ranges, yet
the handsaw and chainsaw maxima are untouched. -/
theorem update_at_most_one_band_witness :
    inSawBand 25 ∧
    (updateBin ⟨0, 0, 0⟩ 25 1).saw = 0 ∧ (updateBin ⟨0, 0, 0⟩ 25 1).chainsaw = 0 :=
  ⟨by norm_num [inSawBand, SAW_MIN_FREQ, SAW_MAX_FREQ],
   ((update_at_most_one_band ⟨0, 0, 0⟩ 25 1).1.2.1
     (by norm_num [inAxeBand, AXE_MIN_FREQ, AXE_MAX_FREQ])).1,
   ((update_at_most_one_band ⟨0, 0, 0⟩ 25 1).1.2.1
     (by norm_num [inAxeBand, AXE_MIN_FREQ, AXE_MAX_FREQ])).2⟩

/-- Claim C6: three consecutive initialization failures abandon the
phase: the attempt loop exits with the phase not completed, `retryCount`
at 3, no acquisition, no persistence and no classification performed
(exactly 3 power-ons and 3 init attempts), and the iteration still
decrements the cycle counter exactly once. -/
theorem init_retry_exhaustion : ∀ (e1 e2 e3 : AttemptEvent) (rest : List AttemptEvent)
    (cycles : ℤ), e1.initOk = false → e2.initOk = false → e3.initOk = false →
    runPhase (e1 :: e2 :: e3 :: rest) = ⟨false, 3, ⟨3, 3, 0, 0, 0, 0⟩⟩ ∧
    (phaseStep cycles (e1 :: e2 :: e3 :: rest)).1 = cycles - 1 := by
  intro e1 e2 e3 rest cycles h1 h2 h3
  constructor
  · simp [runPhase, attemptLoop, h1, h2, h3, addStep, addTrace, attemptLoop_exhausted]
  · rfl

/-- Witness for C6: three failing init attempts, entry counter 5. -/
theorem init_retry_exhaustion_witness :
    runPhase [⟨false, true, true⟩, ⟨false, true, true⟩, ⟨false, true, true⟩] =
      ⟨false, 3, ⟨3, 3, 0, 0, 0, 0⟩⟩ ∧
    (phaseStep 5 [⟨false, true, true⟩, ⟨false, true, true⟩, ⟨false, true, true⟩]).1 = 5 - 1 :=
  init_retry_exhaustion ⟨false, true, true⟩ ⟨false, true, true⟩ ⟨false, true, true⟩ [] 5
    rfl rfl rfl

/-- Claim C7: a persistence failure triggers exactly one remount. If the
remount fails the loop exits at once: phase not completed, no
classification, one remount counted, and `retryCount` unchanged. If the
remount succeeds the loop simply continues with the same `retryCount`, so
a persistence failure never consumes a retry slot. -/
theorem persistence_remount_once : ∀ (e : AttemptEvent) (rest : List AttemptEvent)
    (rc : ℕ), rc < 3 → e.initOk = true → e.logOk = false →
    ((e.remountOk = false →
       attemptLoop (e :: rest) rc = ⟨false, rc, ⟨1, 1, 1, 1, 0, 1⟩⟩) ∧
     (e.remountOk = true →
       attemptLoop (e :: rest) rc = addStep ⟨1, 1, 1, 1, 0, 1⟩ (attemptLoop rest rc))) := by
  intro e rest rc hrc hi hl
  constructor
  · intro hr
    rw [attemptLoop]
    simp [hi, hl, hr, Nat.not_le.mpr hrc]
  · intro hr
    rw [attemptLoop]
    simp [hi, hl, hr, Nat.not_le.mpr hrc]

/-- Witness for C7: a failing store with failing remount abandons the
attempt loop without consuming a retry slot; with a succeeding remount
the loop continues. -/
theorem persistence_remount_once_witness :
    attemptLoop [⟨true, false, false⟩] 0 = ⟨false, 0, ⟨1, 1, 1, 1, 0, 1⟩⟩ ∧
    attemptLoop [⟨true, false, true⟩] 0 = addStep ⟨1, 1, 1, 1, 0, 1⟩ (attemptLoop [] 0) :=
  ⟨(persistence_remount_once ⟨true, false, false⟩ [] 0 (by decide) rfl rfl).1 rfl,
   (persistence_remount_once ⟨true, false, true⟩ [] 0 (by decide) rfl rfl).2 rfl⟩

/-- Claim C8: entering `monitorSensors` with a non-positive cycle budget
halts before any phase: the result is the halt branch with no phase
results, the counter untouched, and no sensor, storage or classification
primitive invoked. -/
theorem budget_exhausted_halts : ∀ (cycles : ℤ) (N : ℕ)
    (script : ℕ → List AttemptEvent), cycles ≤ 0 →
    monitorSensors cycles N script = (cycles, [], true) ∧
    totalTrace (monitorSensors cycles N script).2.1 = ⟨0, 0, 0, 0, 0, 0⟩ := by
  intro cycles N script h
  constructor
  · rw [monitorSensors, if_pos h]
  · rw [monitorSensors, if_pos h]
    rfl

/-- Witness for C8 at a zero budget and 4 configured phases. -/
theorem budget_exhausted_halts_witness :
    monitorSensors 0 4 (fun _ => []) = (0, [], true) ∧
    totalTrace (monitorSensors 0 4 (fun _ => [])).2.1 = ⟨0, 0, 0, 0, 0, 0⟩ :=
  budget_exhausted_halts 0 4 (fun _ => []) (by decide)

/-- Claim C10: the budget is checked only on entry. With a positive entry
counter all `CYCLES_FOR_5_MIN` (`N`) phase iterations run — one result and
one decrement per iteration, final counter exactly `cycles - N`, halt
branch not taken — so entering with `0 < cycles < N` leaves the counter
strictly negative. -/
theorem no_per_phase_budget_check : ∀ (cycles : ℤ) (N : ℕ)
    (script : ℕ → List AttemptEvent), 0 < cycles →
    (monitorSensors cycles N script).1 = cycles - N ∧
    (monitorSensors cycles N script).2.1.length = N ∧
    (monitorSensors cycles N script).2.2 = false ∧
    (cycles < N → (monitorSensors cycles N script).1 < 0) := by
  intro cycles N script h
  have hn : ¬ cycles ≤ 0 := by omega
  have hs := phaseLoop_spec script N 1 cycles
  have hm : monitorSensors cycles N script =
      ((phaseLoop script 1 N cycles).1, (phaseLoop script 1 N cycles).2, false) := by
    rw [monitorSensors, if_neg hn]
  refine ⟨?_, ?_, ?_, ?_⟩
  · rw [hm]
    exact hs.1
  · rw [hm]
    exact hs.2
  · rw [hm]
  · intro hlt
    rw [hm]
    show (phaseLoop script 1 N cycles).1 < 0
    rw [hs.1]
    omega

/-- Witness for C10: budget 1, 3 configured phases: all 3 run and the
counter ends at -2. -/
theorem no_per_phase_budget_check_witness :
    (monitorSensors 1 3 (fun _ => [])).1 = 1 - (3 : ℕ) ∧
    (monitorSensors 1 3 (fun _ => [])).2.1.length = 3 ∧
    (monitorSensors 1 3 (fun _ => [])).1 < 0 :=
  ⟨(no_per_phase_budget_check 1 3 (fun _ => []) (by decide)).1,
   (no_per_phase_budget_check 1 3 (fun _ => []) (by decide)).2.1,
   (no_per_phase_budget_check 1 3 (fun _ => []) (by decide)).2.2.2 (by decide)⟩

/-- Claim C9: the sample buffer never exceeds capacity: block extraction
appends a sample only while the count is strictly below `MAX_SAMPLES`
(`M`), so every append happens at an in-bounds position, the buffer length
stays at most `M` through any sequence of FIFO reads, and once the buffer
is full every further read within the phase leaves it unchanged. -/
theorem buffer_capacity_invariant : ∀ (M : ℕ) (polls : List FifoEvent) (bs : List ℕ)
    (buf : List ℚ), buf.length ≤ M →
    (processBlock M bs buf).length ≤ M ∧
    (∃ ext, processBlock M bs buf = buf ++ ext) ∧
    (buf.length = M → processBlock M bs buf = buf) ∧
    (readPhase M polls buf).length ≤ M ∧
    (buf.length = M → readPhase M polls buf = buf) ∧
    (readAccelerometerDataForPhase M polls).length ≤ M := by
  intro M polls bs buf h
  have hb := processBlock_spec M bs buf h
  have hr := readPhase_spec M polls buf h
  exact ⟨hb.1, hb.2.1, hb.2.2, hr.1, hr.2,
    (readPhase_spec M polls [] (Nat.zero_le M)).1⟩

/-- Witness for C9: capacity 1, one 12-byte block (two 6-byte groups):
only the first group's sample fits. -/
theorem buffer_capacity_invariant_witness :
    (processBlock 1 [0, 64, 0, 0, 0, 0, 9, 9, 9, 9, 9, 9] []).length ≤ 1 ∧
    (readAccelerometerDataForPhase 1
      [FifoEvent.block [0, 64, 0, 0, 0, 0, 9, 9, 9, 9, 9, 9]]).length ≤ 1 :=
  ⟨(buffer_capacity_invariant 1 [FifoEvent.block [0, 64, 0, 0, 0, 0, 9, 9, 9, 9, 9, 9]]
      [0, 64, 0, 0, 0, 0, 9, 9, 9, 9, 9, 9] [] (by decide)).1,
   (buffer_capacity_invariant 1 [FifoEvent.block [0, 64, 0, 0, 0, 0, 9, 9, 9, 9, 9, 9]]
      [0, 64, 0, 0, 0, 0, 9, 9, 9, 9, 9, 9] [] (by decide)).2.2.2.2.2⟩
